import Mathlib

/-!
Shallow embedding of the kafka messaging proxy (`kafka/sarama_client.go`) of
the voltha-go repository, together with theorems settling the specification
claims about it.

Modelling conventions:
* A subscriber channel (`chan *ca.InterContainerMessage`) is identified by a
  natural-number id (`Chan`); the payload type is opaque.  Channel allocation
  (`make(chan ...)`) is modelled by drawing the next fresh id from a counter.
* A broker-level consumer (partition consumer or group consumer) is a record
  with a fresh id and its kind.
* Go errors are strings (`GoErr`); a `nil` error is `none : Option GoErr`.
* The Go map `topicToConsumerChannelMap` is an association list with unique
  keys; lookup / update / delete mirror Go map semantics.
* Interaction with the broker (sarama / sarama-cluster) is an oracle
  (`Broker`): each remote call's reply is a function of its arguments.
* Close events on channels and consumers are returned explicitly as lists
  (with multiplicity), so that "closed exactly once" is expressible.
-/

namespace SaramaModel

/-- Identity of one subscriber channel (`chan *ca.InterContainerMessage`). -/
abbrev Chan := Nat

/-- Opaque decoded application envelope (`ca.InterContainerMessage`). -/
abbrev Envelope := Nat

/-- A Go error value; `none : Option GoErr` is Go's `nil` error. -/
abbrev GoErr := String

/-- Model of `sarama.ErrTopicAlreadyExists` (only its identity matters). -/
def ErrTopicAlreadyExists : GoErr := "kafka server: Topic with this name already exists."

/-- Model of `sarama.ErrUnknownTopicOrPartition` (only its identity matters). -/
def ErrUnknownTopicOrPartition : GoErr := "kafka server: Request was for a topic or partition that does not exist on this broker."

/-- The kind of a broker-level consumer held in a registry entry: a sarama
partition consumer or a sarama-cluster group consumer (`consumers []interface`
in `consumerChannels`). -/
inductive ConsumerKind where
  | partitionC (partition : Int)
  | groupC (groupId : String)
deriving DecidableEq, Repr

/-- One broker-level consumer handle, identified by a fresh id. -/
structure Consumer where
  cid : Nat
  kind : ConsumerKind
deriving DecidableEq, Repr

/-- `consumerChannels`: the registry entry for one topic — broker-level
consumers plus the subscriber channels fed by them. -/
structure ConsumerChannels where
  consumers : List Consumer
  channels : List Chan
deriving DecidableEq, Repr

/-- The `topicToConsumerChannelMap` Go map, as an association list with
unique keys. -/
abbrev Registry := List (String × ConsumerChannels)

/-- Go map lookup: first (unique) binding of the key. -/
def mapLookup (m : Registry) (k : String) : Option ConsumerChannels :=
  match m with
  | [] => none
  | (k2, v) :: rest => if k2 = k then some v else mapLookup rest k

/-- Go map update of an existing key (in-place mutation through the stored
pointer). -/
def mapUpdate (m : Registry) (k : String) (v : ConsumerChannels) : Registry :=
  match m with
  | [] => []
  | (k2, v2) :: rest => if k2 = k then (k2, v) :: rest else (k2, v2) :: mapUpdate rest k v

/-- Go `delete(m, k)`. -/
def mapDelete (m : Registry) (k : String) : Registry :=
  match m with
  | [] => []
  | (k2, v2) :: rest => if k2 = k then rest else (k2, v2) :: mapDelete rest k

/-- `addTopicToConsumerChannelMap`: insert the entry only if the key is
absent. -/
def addTopicToConsumerChannelMap (m : Registry) (k : String) (v : ConsumerChannels) : Registry :=
  match mapLookup m k with
  | some _ => m
  | none => m ++ [(k, v)]

/-- `addChannelToConsumerChannelMap`: if an entry exists for the topic,
append the new channel to it; otherwise only a warning is logged. -/
def addChannelToConsumerChannelMap (m : Registry) (k : String) (ch : Chan) : Registry :=
  match mapLookup m k with
  | some cc => mapUpdate m k { cc with channels := cc.channels ++ [ch] }
  | none => m

/-- Index of the first occurrence of `ch` in the slice, as found by the scan
in `removeChannel`. -/
def findChanIdx (channels : List Chan) (ch : Chan) : Option Nat :=
  match channels with
  | [] => none
  | c :: rest =>
      if c = ch then some 0
      else
        match findChanIdx rest ch with
        | none => none
        | some i => some (i + 1)

/-- The in-place slice mutation performed by `removeChannel` when the channel
is found at index `i`: swap positions `i` and `len-1` of the backing array. -/
def swapWithLast (l : List Chan) (i : Nat) : List Chan :=
  (l.set i (l.getD (l.length - 1) 0)).set (l.length - 1) (l.getD i 0)

/-- The backing array contents after a call to `removeChannel` (the array is
mutated even when the caller discards the returned slice). -/
def removeChannelArr (l : List Chan) (ch : Chan) : List Chan :=
  match findChanIdx l ch with
  | none => l
  | some i => swapWithLast l i

/-- The channels on which `removeChannel` invokes `close` (at most the found
element, which equals `ch`). -/
def removeChannelClosed (l : List Chan) (ch : Chan) : List Chan :=
  match findChanIdx l ch with
  | none => []
  | some _ => [ch]

/-- The slice value returned by `removeChannel`: the swapped array without
its last element when `ch` was found, the input slice otherwise. -/
def removeChannelRet (l : List Chan) (ch : Chan) : List Chan :=
  match findChanIdx l ch with
  | none => l
  | some i => (swapWithLast l i).dropLast

/-- `closeConsumers`: close every consumer in the list; the running `err`
variable keeps the previous value on a nil close result, is reset to nil on
`ErrUnknownTopicOrPartition`, and is overwritten by any other error.
`closeRes` is the broker oracle giving each consumer handle's close result. -/
def closeConsumersGo (closeRes : Nat → Option GoErr) (consumers : List Consumer) : Option GoErr :=
  consumers.foldl
    (fun err c =>
      match closeRes c.cid with
      | none => err
      | some e => if e = ErrUnknownTopicOrPartition then none else some e)
    none

/-- Outcome of a registry-mutating operation: the new map, the subscriber
channels closed (with multiplicity, in order), the broker-level consumers
closed, and the returned Go error. -/
structure RegistryOpResult where
  registry : Registry
  closedChans : List Chan
  closedConsumers : List Nat
  err : Option GoErr
deriving DecidableEq, Repr

/-- `removeChannelFromConsumerChannelMap`: remove one channel from the
topic's entry (closing it if present); when the channel collection becomes
empty, close all consumers and delete the entry, returning the close error;
fail with `topic-does-not-exist` when the topic has no entry. -/
def removeChannelFromConsumerChannelMap (closeRes : Nat → Option GoErr)
    (reg : Registry) (topic : String) (ch : Chan) : RegistryOpResult :=
  match mapLookup reg topic with
  | some cc =>
      let newChans := removeChannelRet cc.channels ch
      let closedCh := removeChannelClosed cc.channels ch
      if newChans.length = 0 then
        { registry := mapDelete reg topic
          closedChans := closedCh
          closedConsumers := cc.consumers.map Consumer.cid
          err := closeConsumersGo closeRes cc.consumers }
      else
        { registry := mapUpdate reg topic { cc with channels := newChans }
          closedChans := closedCh
          closedConsumers := []
          err := none }
  | none =>
      { registry := reg, closedChans := [], closedConsumers := []
        err := some "topic-does-not-exist" }

/-- One iteration sequence of the Go loop
`for _, ch := range consumerCh.channels { removeChannel(consumerCh.channels, ch) }`:
the range header (hence the index list) is fixed at loop entry, but each
element read `ch := arr[i]` sees the backing array as mutated by the previous
`removeChannel` calls, whose returned slice is discarded. -/
def clearLoopIdx (arr : List Chan) : List Nat → List Chan × List Chan
  | [] => (arr, [])
  | i :: rest =>
      let ch := arr.getD i 0
      let arr2 := removeChannelArr arr ch
      let closed := removeChannelClosed arr ch
      let out := clearLoopIdx arr2 rest
      (out.1, closed ++ out.2)

/-- The channel-closing loop shared by `clearTopicFromConsumerChannelMap` and
`clearConsumerChannelMap`; returns the final array and the close events. -/
def clearChannelsGo (channels : List Chan) : List Chan × List Chan :=
  clearLoopIdx channels (List.range channels.length)

/-- `clearTopicFromConsumerChannelMap`: close every subscriber channel of the
topic's entry (via the discard-result loop), close its consumers, delete the
entry; a missing entry is not an error. -/
def clearTopicFromConsumerChannelMap (closeRes : Nat → Option GoErr)
    (reg : Registry) (topic : String) : RegistryOpResult :=
  match mapLookup reg topic with
  | some cc =>
      { registry := mapDelete reg topic
        closedChans := (clearChannelsGo cc.channels).2
        closedConsumers := cc.consumers.map Consumer.cid
        err := closeConsumersGo closeRes cc.consumers }
  | none =>
      { registry := reg, closedChans := [], closedConsumers := [], err := none }

/-- `clearConsumerChannelMap`: apply the same clearing to every entry,
deleting each; `err` keeps the last non-nil `closeConsumers` result. -/
def clearConsumerChannelMap (closeRes : Nat → Option GoErr) (reg : Registry) : RegistryOpResult :=
  match reg with
  | [] => { registry := [], closedChans := [], closedConsumers := [], err := none }
  | (_, cc) :: rest =>
      let tail := clearConsumerChannelMap closeRes rest
      let errHere := closeConsumersGo closeRes cc.consumers
      { registry := []
        closedChans := (clearChannelsGo cc.channels).2 ++ tail.closedChans
        closedConsumers := cc.consumers.map Consumer.cid ++ tail.closedConsumers
        err := match tail.err with
               | some e => some e
               | none => errHere }

/-- Modelled from the spec: the consumer-strategy selector constants
(`PartitionConsumer`, `GroupCustomer`) live in the kafka package client file
that is not under src; only their distinctness is relied upon. -/
def PartitionConsumer : Int := 0

/-- Modelled from the spec: the group consumer-strategy selector constant;
see `PartitionConsumer`. -/
def GroupCustomer : Int := 1

/-- Modelled from the spec: the default group name constant from the kafka
package client file that is not under src; it is only reachable when
`createGroupConsumer` receives a nil group id, which `Subscribe` never does. -/
def DefaultGroupName : String := "voltha"

/-- Modelled from the spec: retry-count constant from the kafka package
client file that is not under src; `createGroupConsumer` ignores its
`retries` argument. -/
def DefaultMaxRetries : Int := 3

/-- Oracle for the broker transport: the reply of each remote call as a
function of its arguments.  `none` replies are Go `nil` errors. -/
structure Broker where
  createTopicRes : String → Option GoErr
  deleteTopicRes : String → Option GoErr
  partitionsRes : String → Except GoErr (List Int)
  consumePartitionRes : String → Int → Option GoErr
  newGroupConsumerRes : String → String → Option GoErr

/-- A remote call performed against the broker, recorded in order. -/
inductive BrokerEvent where
  | createTopicEv (topic : String)
  | partitionsEv (topic : String)
  | consumePartitionEv (topic : String) (partition : Int)
  | newGroupConsumerEv (topic : String) (groupId : String)
deriving DecidableEq, Repr

/-- The mutable fields of `SaramaClient` that the subscription operations
touch, plus the fresh-id counters for channels and consumer handles. -/
structure SaramaState where
  registry : Registry
  nextChan : Nat
  nextConsumer : Nat
  consumerType : Int
  groupName : String
  autoCreateTopic : Bool
  numPartitions : Int
  numReplicas : Int
  groupConsumer : Option Nat
deriving DecidableEq, Repr

/-- `CreateTopic`: create the topic on the broker; an
`ErrTopicAlreadyExists` reply is absorbed as success, any other error is
returned. -/
def CreateTopicM (b : Broker) (topic : String) (_numPartition _repFactor : Int) : Option GoErr :=
  match b.createTopicRes topic with
  | some e => if e = ErrTopicAlreadyExists then none else some e
  | none => none

/-- `DeleteTopic`: delete the topic on the broker; an
`ErrUnknownTopicOrPartition` reply is absorbed as success (nothing is
cleared); on a successful delete the topic is cleared from the registry. -/
def DeleteTopicM (b : Broker) (closeRes : Nat → Option GoErr)
    (reg : Registry) (topic : String) : RegistryOpResult :=
  match b.deleteTopicRes topic with
  | some e =>
      if e = ErrUnknownTopicOrPartition then
        { registry := reg, closedChans := [], closedConsumers := [], err := none }
      else
        { registry := reg, closedChans := [], closedConsumers := [], err := some e }
  | none => clearTopicFromConsumerChannelMap closeRes reg topic

/-- The partition-consumer creation loop inside `createPartionConsumers`:
one `ConsumePartition` call per listed partition, stopping at the first
failure. -/
def createFromPartitions (b : Broker) (topic : String) :
    List Int → Nat → (Except GoErr (List Consumer) × Nat × List BrokerEvent)
  | [], ctr => (Except.ok [], ctr, [])
  | p :: rest, ctr =>
      match b.consumePartitionRes topic p with
      | some e => (Except.error e, ctr, [BrokerEvent.consumePartitionEv topic p])
      | none =>
          let c : Consumer := { cid := ctr, kind := ConsumerKind.partitionC p }
          let out := createFromPartitions b topic rest (ctr + 1)
          match out.1 with
          | Except.error e => (Except.error e, out.2.1, BrokerEvent.consumePartitionEv topic p :: out.2.2)
          | Except.ok cs => (Except.ok (c :: cs), out.2.1, BrokerEvent.consumePartitionEv topic p :: out.2.2)

/-- `createPartionConsumers`: list the topic's partitions, then open one
partition consumer per partition at the requested offset. -/
def createPartionConsumersM (b : Broker) (topic : String) (nextConsumer : Nat) :
    Except GoErr (List Consumer) × Nat × List BrokerEvent :=
  match b.partitionsRes topic with
  | Except.error e => (Except.error e, nextConsumer, [BrokerEvent.partitionsEv topic])
  | Except.ok parts =>
      let out := createFromPartitions b topic parts nextConsumer
      (out.1, out.2.1, BrokerEvent.partitionsEv topic :: out.2.2)

/-- `setupPartitionConsumerChannel`: create the partition consumers, a fresh
listening channel, register the `consumerChannels` entry (insert-if-absent)
and return the channel. -/
def setupPartitionConsumerChannelM (b : Broker) (sc : SaramaState) (topic : String) :
    SaramaState × Except GoErr Chan × List BrokerEvent :=
  match createPartionConsumersM b topic sc.nextConsumer with
  | (Except.error e, _, evs) => (sc, Except.error e, evs)
  | (Except.ok cs, ctr, evs) =>
      let ch := sc.nextChan
      let cc : ConsumerChannels := { consumers := cs, channels := [ch] }
      ({ sc with nextChan := ch + 1
                 nextConsumer := ctr
                 registry := addTopicToConsumerChannelMap sc.registry topic cc },
       Except.ok ch, evs)

/-- `createGroupConsumer`: create one sarama-cluster group consumer for the
topic, defaulting a nil group id to `DefaultGroupName`, and store it in the
client's `groupConsumer` field. -/
def createGroupConsumerM (b : Broker) (sc : SaramaState) (topic : String)
    (groupId : Option String) (_retries : Int) :
    SaramaState × Except GoErr Consumer × List BrokerEvent :=
  let gid := match groupId with
             | none => DefaultGroupName
             | some g => g
  match b.newGroupConsumerRes topic gid with
  | some e => (sc, Except.error e, [BrokerEvent.newGroupConsumerEv topic gid])
  | none =>
      let c : Consumer := { cid := sc.nextConsumer, kind := ConsumerKind.groupC gid }
      ({ sc with nextConsumer := sc.nextConsumer + 1, groupConsumer := some c.cid },
       Except.ok c, [BrokerEvent.newGroupConsumerEv topic gid])

/-- `setupGroupConsumerChannel`: create the group consumer, a fresh
listening channel, register the entry (insert-if-absent) and return the
channel. -/
def setupGroupConsumerChannelM (b : Broker) (sc : SaramaState) (topic : String)
    (groupId : String) : SaramaState × Except GoErr Chan × List BrokerEvent :=
  match createGroupConsumerM b sc topic (some groupId) DefaultMaxRetries with
  | (sc2, Except.error e, evs) => (sc2, Except.error e, evs)
  | (sc2, Except.ok c, evs) =>
      let ch := sc2.nextChan
      let cc : ConsumerChannels := { consumers := [c], channels := [ch] }
      ({ sc2 with nextChan := ch + 1
                  registry := addTopicToConsumerChannelMap sc2.registry topic cc },
       Except.ok ch, evs)

/-- `Subscribe`: reuse an existing entry by allocating and appending one new
channel; otherwise build the broker-level consumers under the configured
strategy (with topic auto-creation only on the partition branch) and register
the entry.  Returns the new state, the result, and the broker-call trace. -/
def Subscribe (b : Broker) (sc : SaramaState) (topic : String) :
    SaramaState × Except GoErr Chan × List BrokerEvent :=
  match mapLookup sc.registry topic with
  | some _ =>
      let ch := sc.nextChan
      ({ sc with nextChan := ch + 1
                 registry := addChannelToConsumerChannelMap sc.registry topic ch },
       Except.ok ch, [])
  | none =>
      if sc.consumerType = PartitionConsumer then
        if sc.autoCreateTopic then
          match CreateTopicM b topic sc.numPartitions sc.numReplicas with
          | some e => (sc, Except.error e, [BrokerEvent.createTopicEv topic])
          | none =>
              let out := setupPartitionConsumerChannelM b sc topic
              (out.1, out.2.1, BrokerEvent.createTopicEv topic :: out.2.2)
        else
          setupPartitionConsumerChannelM b sc topic
      else if sc.consumerType = GroupCustomer then
        setupGroupConsumerChannelM b sc topic "mytest"
      else
        (sc, Except.error "unknown-consumer-type", [])

/-- `UnSubscribe`: delegate to `removeChannelFromConsumerChannelMap`. -/
def UnSubscribe (closeRes : Nat → Option GoErr) (sc : SaramaState)
    (topic : String) (ch : Chan) : SaramaState × RegistryOpResult :=
  let r := removeChannelFromConsumerChannelMap closeRes sc.registry topic ch
  ({ sc with registry := r.registry }, r)

/-- The `interface` argument of `Send`: either an application proto message
(the envelope) or any other value, carried with its format string rendering. -/
inductive SendMsg where
  | protoM (env : Envelope)
  | nonProto (rendered : String)
deriving DecidableEq, Repr

/-- The `sarama.ProducerMessage` built by `Send`. -/
structure ProducerMessage where
  topic : String
  key : String
  value : List Nat
deriving DecidableEq, Repr

/-- `Send`: type-check the message as a proto message (error
`not-a-proto-msg-...` otherwise), marshal it (`marshal` is the proto-library
oracle), pick the first routing key if any, and enqueue the record on the
producer input.  Returns the Go error and the enqueued record, if any. -/
def Send (marshal : Envelope → Except GoErr (List Nat)) (msg : SendMsg)
    (topic : String) (keys : List String) : Option GoErr × Option ProducerMessage :=
  match msg with
  | SendMsg.nonProto s => (some ("not-a-proto-msg-" ++ s), none)
  | SendMsg.protoM env =>
      match marshal env with
      | Except.error e => (some e, none)
      | Except.ok marshalled =>
          let key := match keys with
                     | [] => ""
                     | k :: _ => k
          (none, some { topic := topic, key := key, value := marshalled })

/-- One event delivered to the `select` of `consumeGroupMessages`: an error,
a (possibly nil) message carrying raw bytes, a rebalance notification, or the
done signal. -/
inductive GroupEvent where
  | errEv (e : Option GoErr)
  | msgEv (m : Option (List Nat))
  | notifEv
  | doneEv
deriving DecidableEq, Repr

/-- An action the group-consumption loop body performs on a message:
dispatching the decoded envelope to the subscribers, or marking the message
offset on the group consumer. -/
inductive GroupAction where
  | dispatchAct (env : Envelope)
  | markAct
deriving DecidableEq, Repr

/-- Result of one iteration of the `consumeGroupMessages` loop body: the
actions taken in order, and whether the loop exits. -/
structure GroupStep where
  actions : List GroupAction
  exitLoop : Bool
deriving DecidableEq, Repr

/-- One iteration of the `consumeGroupMessages` loop: errors and
notifications are only logged; a nil message or the done signal exits; a
message that fails to unmarshal is dropped; otherwise the envelope is
dispatched and the offset is then marked.  `decode` is the proto-unmarshal
oracle. -/
def consumeGroupStep (decode : List Nat → Option Envelope) (ev : GroupEvent) : GroupStep :=
  match ev with
  | GroupEvent.errEv _ => { actions := [], exitLoop := false }
  | GroupEvent.msgEv none => { actions := [], exitLoop := true }
  | GroupEvent.msgEv (some msgBody) =>
      match decode msgBody with
      | none => { actions := [], exitLoop := false }
      | some icm => { actions := [GroupAction.dispatchAct icm, GroupAction.markAct], exitLoop := false }
  | GroupEvent.notifEv => { actions := [], exitLoop := false }
  | GroupEvent.doneEv => { actions := [], exitLoop := true }

/-- The fields of `SaramaClient` that `Stop` touches: the done channel
(buffered, capacity one, as a token count), the four handle fields (whether
each is nil — `Stop` never clears them), per-handle counts of `Close`
invocations, and the registry. -/
structure StopState where
  doneTokens : Nat
  producerNil : Bool
  consumerNil : Bool
  groupConsumerNil : Bool
  cAdminNil : Bool
  producerCloses : Nat
  consumerCloses : Nat
  groupCloses : Nat
  adminCloses : Nat
  registry : Registry
deriving DecidableEq, Repr

/-- `Stop`: send one token on the done channel (`drained` says whether an
active consumption loop receives it; with the one-slot buffer already full
and nobody draining, the send blocks forever, modelled as `none`), then
invoke `Close` on every non-nil handle, then clear the registry. -/
def StopM (closeRes : Nat → Option GoErr) (drained : Bool) (st : StopState) : Option StopState :=
  if 1 ≤ st.doneTokens ∧ drained = false then
    none
  else
    let tokens := if drained then st.doneTokens else st.doneTokens + 1
    let cleared := clearConsumerChannelMap closeRes st.registry
    some { st with
      doneTokens := tokens
      producerCloses := st.producerCloses + (if st.producerNil then 0 else 1)
      consumerCloses := st.consumerCloses + (if st.consumerNil then 0 else 1)
      groupCloses := st.groupCloses + (if st.groupConsumerNil then 0 else 1)
      adminCloses := st.adminCloses + (if st.cAdminNil then 0 else 1)
      registry := cleared.registry }

/-- Whether an `Except` result is a success (Go: returned error is nil). -/
def exceptIsOk (r : Except GoErr Chan) : Bool :=
  match r with
  | Except.ok _ => true
  | Except.error _ => false

/-- The keys of the registry map are pairwise distinct (Go map invariant). -/
def keysNodup (reg : Registry) : Prop := (reg.map Prod.fst).Nodup

/-- Outcome of calling `Subscribe` repeatedly on one topic: final state, the
per-call results, and the per-call broker traces, in call order. -/
structure SubNOut where
  state : SaramaState
  results : List (Except GoErr Chan)
  traces : List (List BrokerEvent)

/-- Call `Subscribe` on the same topic `n` times in sequence. -/
def subscribeN (b : Broker) (topic : String) : Nat → SaramaState → SubNOut
  | 0, sc => { state := sc, results := [], traces := [] }
  | Nat.succ n, sc =>
      let out := Subscribe b sc topic
      let tail := subscribeN b topic n out.1
      { state := tail.state, results := out.2.1 :: tail.results
        traces := out.2.2 :: tail.traces }

/-- A broker on which every remote call succeeds; the only topic has one
partition. -/
def brokerOkG : Broker :=
  { createTopicRes := fun _ => none
    deleteTopicRes := fun _ => none
    partitionsRes := fun _ => Except.ok [0]
    consumePartitionRes := fun _ _ => none
    newGroupConsumerRes := fun _ _ => none }

/-- A freshly started client configured for the partition strategy, with
auto-create off and an empty registry. -/
def scPart0 : SaramaState :=
  { registry := [], nextChan := 0, nextConsumer := 0
    consumerType := PartitionConsumer, groupName := ""
    autoCreateTopic := false, numPartitions := 3, numReplicas := 1
    groupConsumer := none }

/-- A freshly started client configured for the group strategy with
auto-create-topic enabled and a configured group name. -/
def scGroupAuto : SaramaState :=
  { registry := [], nextChan := 0, nextConsumer := 0
    consumerType := GroupCustomer, groupName := "configured-group"
    autoCreateTopic := true, numPartitions := 3, numReplicas := 1
    groupConsumer := none }

/-- Client state right after a successful `Start` plus one group
subscription: all four handles non-nil, the done channel empty, no `Close`
called yet, one registry entry. -/
def postStartStop : StopState :=
  { doneTokens := 0
    producerNil := false, consumerNil := false
    groupConsumerNil := false, cAdminNil := false
    producerCloses := 0, consumerCloses := 0, groupCloses := 0, adminCloses := 0
    registry := [("events", { consumers := [{ cid := 0, kind := ConsumerKind.groupC "mytest" }]
                              channels := [0] })] }

/-- A client state with one partition-strategy entry for topic `t` holding
channels 5 and 6. -/
def scUnsub : SaramaState :=
  { registry := [("t", { consumers := [{ cid := 0, kind := ConsumerKind.partitionC 0 }]
                         channels := [5, 6] })]
    nextChan := 7, nextConsumer := 1
    consumerType := PartitionConsumer, groupName := ""
    autoCreateTopic := false, numPartitions := 3, numReplicas := 1
    groupConsumer := none }

/-- `scPart0` with topic auto-creation enabled. -/
def scPartAuto : SaramaState :=
  { scPart0 with autoCreateTopic := true }

/-- A broker on which topic creation reports the topic as already existing
and topic deletion reports it as unknown. -/
def brokerAdminEdge : Broker :=
  { createTopicRes := fun _ => some ErrTopicAlreadyExists
    deleteTopicRes := fun _ => some ErrUnknownTopicOrPartition
    partitionsRes := fun _ => Except.ok [0]
    consumePartitionRes := fun _ _ => none
    newGroupConsumerRes := fun _ _ => none }
/-! ### Lemmas about the channel-removal primitive -/

theorem findChanIdx_eq_none_iff (l : List Chan) (ch : Chan) :
    findChanIdx l ch = none ↔ ch ∉ l := by
  induction l with
  | nil => simp [findChanIdx]
  | cons c rest ih =>
      simp only [findChanIdx]
      by_cases hc : c = ch
      · simp [hc]
      · rw [if_neg hc]
        cases hfi : findChanIdx rest ch with
        | none =>
            simp only [List.mem_cons, not_or]
            constructor
            · intro _
              exact ⟨fun h => hc h.symm, ih.mp hfi⟩
            · intro _
              trivial
        | some j =>
            simp only [List.mem_cons, not_or]
            constructor
            · intro h
              cases h
            · intro h
              have : findChanIdx rest ch = none := ih.mpr h.2
              rw [this] at hfi
              cases hfi

theorem findChanIdx_lt (l : List Chan) (ch : Chan) (i : Nat)
    (h : findChanIdx l ch = some i) : i < l.length := by
  induction l generalizing i with
  | nil => simp [findChanIdx] at h
  | cons c rest ih =>
      simp only [findChanIdx] at h
      by_cases hc : c = ch
      · rw [if_pos hc] at h
        cases h
        simp
      · rw [if_neg hc] at h
        cases hfi : findChanIdx rest ch with
        | none => rw [hfi] at h; cases h
        | some j =>
            rw [hfi] at h
            cases h
            have := ih j hfi
            simp only [List.length_cons]
            omega

theorem findChanIdx_getD (l : List Chan) (ch : Chan) (i : Nat)
    (h : findChanIdx l ch = some i) : l.getD i 0 = ch := by
  induction l generalizing i with
  | nil => simp [findChanIdx] at h
  | cons c rest ih =>
      simp only [findChanIdx] at h
      by_cases hc : c = ch
      · rw [if_pos hc] at h
        cases h
        simpa using hc
      · rw [if_neg hc] at h
        cases hfi : findChanIdx rest ch with
        | none => rw [hfi] at h; cases h
        | some j =>
            rw [hfi] at h
            cases h
            simpa using ih j hfi

theorem getD_set_self (l : List Chan) (i : Nat) (a d : Chan) (h : i < l.length) :
    (l.set i a).getD i d = a := by
  induction l generalizing i with
  | nil => simp at h
  | cons c rest ih =>
      cases i with
      | zero => simp
      | succ j =>
          simp only [List.set_cons_succ, List.getD_cons_succ]
          exact ih j (by simpa using h)

theorem getD_set_ne (l : List Chan) (i j : Nat) (a d : Chan) (h : i ≠ j) :
    (l.set i a).getD j d = l.getD j d := by
  induction l generalizing i j with
  | nil => simp
  | cons c rest ih =>
      cases i with
      | zero =>
          cases j with
          | zero => exact absurd rfl h
          | succ j2 => simp
      | succ i2 =>
          cases j with
          | zero => simp
          | succ j2 =>
              simp only [List.set_cons_succ, List.getD_cons_succ]
              exact ih i2 j2 (by omega)

theorem getD_mem (l : List Chan) (i : Nat) (d : Chan) (h : i < l.length) :
    l.getD i d ∈ l := by
  rw [List.getD_eq_getElem l d h]
  exact List.getElem_mem h

theorem count_set (l : List Chan) (i : Nat) (a x : Chan) (h : i < l.length) :
    (l.set i a).count x =
      l.count x - (if l.getD i 0 = x then 1 else 0) + (if a = x then 1 else 0) := by
  induction l generalizing i with
  | nil => simp at h
  | cons c rest ih =>
      cases i with
      | zero =>
          simp only [List.set_cons_zero, List.getD_cons_zero, List.count_cons]
          by_cases hcx : c = x <;> by_cases hax : a = x <;>
            simp [hcx, hax, beq_iff_eq]
      | succ j =>
          have hj : j < rest.length := by simpa using h
          have hmem : rest.getD j 0 ∈ rest := getD_mem rest j 0 hj
          have hcnt : 0 < rest.count (rest.getD j 0) := List.count_pos_iff.mpr hmem
          simp only [List.set_cons_succ, List.getD_cons_succ, List.count_cons, beq_iff_eq]
          rw [ih j hj]
          by_cases hgx : rest.getD j 0 = x
          · rw [hgx] at hcnt
            rw [if_pos hgx]
            split_ifs <;> omega
          · rw [if_neg hgx]
            split_ifs <;> omega

theorem swapWithLast_length (l : List Chan) (i : Nat) :
    (swapWithLast l i).length = l.length := by
  simp [swapWithLast]

theorem count_swapWithLast (l : List Chan) (i : Nat) (x : Chan) (h : i < l.length) :
    (swapWithLast l i).count x = l.count x := by
  have hlast : l.length - 1 < l.length := by omega
  have h1 : (l.set i (l.getD (l.length - 1) 0)).length = l.length := by simp
  have hgetm1 : (l.set i (l.getD (l.length - 1) 0)).getD (l.length - 1) 0
      = l.getD (l.length - 1) 0 := by
    by_cases hi : i = l.length - 1
    · subst hi
      exact getD_set_self l (l.length - 1) _ 0 h
    · exact getD_set_ne l i (l.length - 1) _ 0 hi
  unfold swapWithLast
  rw [count_set _ (l.length - 1) _ x (by rw [h1]; exact hlast)]
  rw [count_set l i _ x h, hgetm1]
  have hmi : l.getD i 0 ∈ l := getD_mem l i 0 h
  by_cases ha : l.getD i 0 = x
  · have hpos : 0 < l.count x := List.count_pos_iff.mpr (ha ▸ hmi)
    by_cases hb : l.getD (l.length - 1) 0 = x <;>
      simp only [ha, hb, if_true, if_false] <;> omega
  · by_cases hb : l.getD (l.length - 1) 0 = x <;>
      simp only [ha, hb, if_true, if_false] <;> omega

theorem dropLast_append_getD (l : List Chan) (h : l ≠ []) :
    l.dropLast ++ [l.getD (l.length - 1) 0] = l := by
  induction l with
  | nil => exact absurd rfl h
  | cons c rest ih =>
      cases rest with
      | nil => simp
      | cons c2 rest2 =>
          have hh := ih (by simp)
          simp only [List.length_cons, Nat.add_sub_cancel] at hh ⊢
          rw [List.getD_cons_succ]
          show c :: ((c2 :: rest2).dropLast ++ [(c2 :: rest2).getD ((c2 :: rest2).length - 1) 0])
              = c :: c2 :: rest2
          simp only [List.length_cons, Nat.add_sub_cancel]
          rw [hh]

theorem swapWithLast_getD_last (l : List Chan) (i : Nat) (h : i < l.length) :
    (swapWithLast l i).getD (l.length - 1) 0 = l.getD i 0 := by
  have h1 : (l.set i (l.getD (l.length - 1) 0)).length = l.length := by simp
  unfold swapWithLast
  exact getD_set_self _ (l.length - 1) _ 0 (by rw [h1]; omega)

theorem removeChannelRet_length (l : List Chan) (ch : Chan) (i : Nat)
    (hfi : findChanIdx l ch = some i) :
    (removeChannelRet l ch).length + 1 = l.length := by
  have hi : i < l.length := findChanIdx_lt l ch i hfi
  simp only [removeChannelRet, hfi, List.length_dropLast, swapWithLast_length]
  omega

theorem removeChannelRet_count_self (l : List Chan) (ch : Chan) (i : Nat)
    (hfi : findChanIdx l ch = some i) :
    (removeChannelRet l ch).count ch + 1 = l.count ch := by
  have hi : i < l.length := findChanIdx_lt l ch i hfi
  have hgi : l.getD i 0 = ch := findChanIdx_getD l ch i hfi
  have hml : (swapWithLast l i).length = l.length := swapWithLast_length l i
  have hmne : swapWithLast l i ≠ [] := by
    intro he
    rw [he] at hml
    simp at hml
    omega
  have hlastm : (swapWithLast l i).getD ((swapWithLast l i).length - 1) 0 = ch := by
    rw [hml, swapWithLast_getD_last l i hi, hgi]
  have hsplit := dropLast_append_getD (swapWithLast l i) hmne
  have hcm : (swapWithLast l i).count ch = l.count ch := count_swapWithLast l i ch hi
  simp only [removeChannelRet, hfi]
  have hx : ((swapWithLast l i).dropLast ++ [(swapWithLast l i).getD ((swapWithLast l i).length - 1) 0]).count ch
      = (swapWithLast l i).count ch := by rw [hsplit]
  rw [List.count_append, hlastm] at hx
  simp at hx
  omega

theorem removeChannelRet_not_mem (l : List Chan) (ch : Chan)
    (hnd : l.Nodup) (hmem : ch ∈ l) : ch ∉ removeChannelRet l ch := by
  cases hfi : findChanIdx l ch with
  | none => exact absurd ((findChanIdx_eq_none_iff l ch).mp hfi) (by simp [hmem])
  | some i =>
      have h1 := removeChannelRet_count_self l ch i hfi
      have h2 : l.count ch = 1 := List.count_eq_one_of_mem hnd hmem
      rw [h2] at h1
      have : (removeChannelRet l ch).count ch = 0 := by omega
      exact List.count_eq_zero.mp this

theorem removeChannelRet_of_not_mem (l : List Chan) (ch : Chan) (hmem : ch ∉ l) :
    removeChannelRet l ch = l ∧ removeChannelClosed l ch = [] := by
  have hfi : findChanIdx l ch = none := (findChanIdx_eq_none_iff l ch).mpr hmem
  constructor
  · simp only [removeChannelRet, hfi]
  · simp only [removeChannelClosed, hfi]

theorem removeChannelClosed_of_mem (l : List Chan) (ch : Chan) (hmem : ch ∈ l) :
    removeChannelClosed l ch = [ch] := by
  cases hfi : findChanIdx l ch with
  | none => exact absurd ((findChanIdx_eq_none_iff l ch).mp hfi) (by simp [hmem])
  | some i =>
      simp only [removeChannelClosed, hfi]

/-! ### Lemmas about the registry map -/

theorem mapLookup_none_iff (m : Registry) (k : String) :
    mapLookup m k = none ↔ k ∉ m.map Prod.fst := by
  induction m with
  | nil => simp [mapLookup]
  | cons p rest ih =>
      obtain ⟨k2, v⟩ := p
      by_cases hk : k2 = k
      · simp [mapLookup, hk]
      · simp only [mapLookup, if_neg hk, List.map_cons, List.mem_cons, not_or]
        rw [ih]
        constructor
        · intro hr
          exact ⟨fun he => hk he.symm, hr⟩
        · intro hr
          exact hr.2

theorem mapLookup_mem_keys (m : Registry) (k : String) (v : ConsumerChannels)
    (h : mapLookup m k = some v) : k ∈ m.map Prod.fst := by
  by_contra hn
  rw [← mapLookup_none_iff] at hn
  rw [hn] at h
  cases h

theorem mapUpdate_keys (m : Registry) (k : String) (v : ConsumerChannels) :
    (mapUpdate m k v).map Prod.fst = m.map Prod.fst := by
  induction m with
  | nil => rfl
  | cons p rest ih =>
      obtain ⟨k2, v2⟩ := p
      by_cases hk : k2 = k
      · simp [mapUpdate, hk]
      · simp [mapUpdate, hk, ih]

theorem mapLookup_update_self (m : Registry) (k : String) (v0 v : ConsumerChannels)
    (h : mapLookup m k = some v0) : mapLookup (mapUpdate m k v) k = some v := by
  induction m with
  | nil => cases h
  | cons p rest ih =>
      obtain ⟨k2, v2⟩ := p
      by_cases hk : k2 = k
      · simp [mapUpdate, mapLookup, hk]
      · simp only [mapLookup, if_neg hk] at h
        simp only [mapUpdate, if_neg hk, mapLookup, if_neg hk]
        exact ih h

theorem mapUpdate_self_eq (m : Registry) (k : String) (v : ConsumerChannels)
    (h : mapLookup m k = some v) : mapUpdate m k v = m := by
  induction m with
  | nil => rfl
  | cons p rest ih =>
      obtain ⟨k2, v2⟩ := p
      by_cases hk : k2 = k
      · simp only [mapLookup, if_pos hk] at h
        cases h
        simp [mapUpdate, hk]
      · simp only [mapLookup, if_neg hk] at h
        simp [mapUpdate, hk, ih h]

theorem mapLookup_append_self (m : Registry) (k : String) (v : ConsumerChannels)
    (h : mapLookup m k = none) : mapLookup (m ++ [(k, v)]) k = some v := by
  induction m with
  | nil => simp [mapLookup]
  | cons p rest ih =>
      obtain ⟨k2, v2⟩ := p
      by_cases hk : k2 = k
      · simp only [mapLookup, if_pos hk] at h
        cases h
      · simp only [mapLookup, if_neg hk] at h
        simp only [List.cons_append, mapLookup, if_neg hk]
        exact ih h

theorem count_keys_eq_one (m : Registry) (k : String) (v : ConsumerChannels)
    (hnd : keysNodup m) (h : mapLookup m k = some v) :
    (m.map Prod.fst).count k = 1 :=
  List.count_eq_one_of_mem hnd (mapLookup_mem_keys m k v h)

theorem addTopic_of_none (m : Registry) (k : String) (v : ConsumerChannels)
    (h : mapLookup m k = none) :
    addTopicToConsumerChannelMap m k v = m ++ [(k, v)] := by
  simp only [addTopicToConsumerChannelMap, h]

theorem keysNodup_append (m : Registry) (k : String) (v : ConsumerChannels)
    (hnd : keysNodup m) (h : mapLookup m k = none) :
    keysNodup (m ++ [(k, v)]) := by
  have hk : k ∉ m.map Prod.fst := (mapLookup_none_iff m k).mp h
  unfold keysNodup at hnd ⊢
  simp only [List.map_append, List.map_cons, List.map_nil]
  rw [List.nodup_append]
  refine ⟨hnd, List.nodup_singleton k, ?_⟩
  intro a ha hb
  simp at hb
  subst hb
  exact hk ha

theorem keysNodup_update (m : Registry) (k : String) (v : ConsumerChannels)
    (hnd : keysNodup m) : keysNodup (mapUpdate m k v) := by
  unfold keysNodup
  rw [mapUpdate_keys]
  exact hnd

/-! ### Claim theorems -/

/-- C3 (code bug evaluation): clearing a topic whose registry entry holds the
two subscriber channels 0 and 1 invokes close on channel 0 twice and never
closes channel 1, because the loop in `clearTopicFromConsumerChannelMap`
discards the slice returned by `removeChannel` while `removeChannel` swaps
elements of the shared backing array in place.  In Go, the second close of
channel 0 panics.  This contradicts the claim that every removal path closes
each registered channel exactly once. -/
theorem claim3_cleartopic_double_close_eval :
    (clearTopicFromConsumerChannelMap (fun _ => none)
        [("t", { consumers := [{ cid := 0, kind := ConsumerKind.partitionC 0 }]
                 channels := [0, 1] })] "t").closedChans = [0, 0] ∧
    (clearChannelsGo [0, 1]).2.count 0 = 2 ∧
    (clearChannelsGo [0, 1]).2.count 1 = 0 := by
  decide

/-- C4 (code bug evaluation): starting from a started client with all four
handles non-nil, two consecutive `Stop` calls whose done-channel sends are
both drained by active loops invoke `Close` twice on the producer, the raw
consumer, the group consumer and the admin handle (the handles are never
nil-ed out), and with no active loop the second `Stop` blocks forever on the
done-channel send; the registry part of the claim does hold (it is empty
after `Stop`). -/
theorem claim4_stop_twice_eval :
    ((StopM (fun _ => none) true postStartStop).bind (StopM (fun _ => none) true)).map
        (fun st => (st.producerCloses, st.consumerCloses, st.groupCloses,
                    st.adminCloses, st.registry))
      = some (2, 2, 2, 2, ([] : Registry)) ∧
    (StopM (fun _ => none) false postStartStop).bind (StopM (fun _ => none) false) = none := by
  exact ⟨rfl, rfl⟩

/-- C6: `Send` with a non-proto payload returns an error and enqueues
nothing; with a proto payload that marshals successfully it enqueues exactly
one record carrying the given topic and, as key, the first supplied key or
the empty string. -/
theorem claim6_send_invalid_payload_and_key (marshal : Envelope → Except GoErr (List Nat))
    (topic : String) (keys : List String) :
    (∀ s, (Send marshal (SendMsg.nonProto s) topic keys).1.isSome = true ∧
          (Send marshal (SendMsg.nonProto s) topic keys).2 = none) ∧
    (∀ env bytes, marshal env = Except.ok bytes →
        Send marshal (SendMsg.protoM env) topic keys =
          (none, some { topic := topic, key := keys.headD "", value := bytes })) := by
  constructor
  · intro s
    constructor <;> simp [Send]
  · intro env bytes h
    simp only [Send, h]
    cases keys <;> simp [List.headD]

/-- C6 witness: concrete evaluation of the theorem at a successful marshal. -/
theorem claim6_witness :
    Send (fun e => Except.ok [e]) (SendMsg.protoM 9) "events" ["k1", "k2"] =
      (none, some { topic := "events", key := "k1", value := [9] }) :=
  (claim6_send_invalid_payload_and_key (fun e => Except.ok [e]) "events" ["k1", "k2"]).2
    9 [9] rfl

/-- C7: in the group-consumption loop, a non-nil message that decodes
successfully is dispatched and then has its offset marked, in that order,
and the loop continues; a message that fails to decode is dropped with no
dispatch and no offset mark, and the loop continues. -/
theorem claim7_group_decode_dispatch_mark (decode : List Nat → Option Envelope)
    (msgBody : List Nat) :
    (∀ env, decode msgBody = some env →
        consumeGroupStep decode (GroupEvent.msgEv (some msgBody)) =
          { actions := [GroupAction.dispatchAct env, GroupAction.markAct]
            exitLoop := false }) ∧
    (decode msgBody = none →
        consumeGroupStep decode (GroupEvent.msgEv (some msgBody)) =
          { actions := [], exitLoop := false }) := by
  constructor
  · intro env h
    simp [consumeGroupStep, h]
  · intro h
    simp [consumeGroupStep, h]

/-- C7 witness: concrete evaluation with a successful decode. -/
theorem claim7_witness :
    consumeGroupStep (fun _ => some 42) (GroupEvent.msgEv (some [1])) =
      { actions := [GroupAction.dispatchAct 42, GroupAction.markAct], exitLoop := false } :=
  (claim7_group_decode_dispatch_mark (fun _ => some 42) [1]).1 42 rfl

/-- C8: `CreateTopic` absorbs the broker's already-exists reply and returns
nil; `DeleteTopic` absorbs the broker's unknown-topic reply and returns nil
without touching the registry. -/
theorem claim8_create_delete_idempotent (b1 b2 : Broker) (closeRes : Nat → Option GoErr)
    (reg : Registry) (topic : String) (n r : Int)
    (h1 : b1.createTopicRes topic = some ErrTopicAlreadyExists)
    (h2 : b2.deleteTopicRes topic = some ErrUnknownTopicOrPartition) :
    CreateTopicM b1 topic n r = none ∧
    DeleteTopicM b2 closeRes reg topic =
      { registry := reg, closedChans := [], closedConsumers := [], err := none } := by
  constructor
  · simp [CreateTopicM, h1]
  · simp [DeleteTopicM, h2]

/-- C8 witness: concrete evaluation on a broker reporting both edge
replies. -/
theorem claim8_witness :
    CreateTopicM brokerAdminEdge "events" 3 1 = none ∧
    DeleteTopicM brokerAdminEdge (fun _ => none) scUnsub.registry "events" =
      { registry := scUnsub.registry, closedChans := [], closedConsumers := []
        err := none } :=
  claim8_create_delete_idempotent brokerAdminEdge brokerAdminEdge (fun _ => none)
    scUnsub.registry "events" 3 1 rfl rfl

/-- Helper: shape of `removeChannelFromConsumerChannelMap` when the entry
exists and the removal leaves channels behind. -/
theorem removeChannelFromMap_nonempty (closeRes : Nat → Option GoErr)
    (reg : Registry) (topic : String) (ch : Chan) (cc : ConsumerChannels)
    (hEntry : mapLookup reg topic = some cc)
    (hlen : (removeChannelRet cc.channels ch).length ≠ 0) :
    removeChannelFromConsumerChannelMap closeRes reg topic ch =
      { registry := mapUpdate reg topic { cc with channels := removeChannelRet cc.channels ch }
        closedChans := removeChannelClosed cc.channels ch
        closedConsumers := [], err := none } := by
  simp only [removeChannelFromConsumerChannelMap, hEntry, if_neg hlen]

/-- Helper: shape of `removeChannelFromConsumerChannelMap` when the entry
exists and the removal empties the channel collection. -/
theorem removeChannelFromMap_empty (closeRes : Nat → Option GoErr)
    (reg : Registry) (topic : String) (ch : Chan) (cc : ConsumerChannels)
    (hEntry : mapLookup reg topic = some cc)
    (hlen : (removeChannelRet cc.channels ch).length = 0) :
    removeChannelFromConsumerChannelMap closeRes reg topic ch =
      { registry := mapDelete reg topic
        closedChans := removeChannelClosed cc.channels ch
        closedConsumers := cc.consumers.map Consumer.cid
        err := closeConsumersGo closeRes cc.consumers } := by
  simp only [removeChannelFromConsumerChannelMap, hEntry, if_pos hlen]

/-- C2: `UnSubscribe` on a topic with a registry entry removes the given
channel from the entry (closing it exactly once); if that empties the
collection it closes every broker-level consumer of the entry, deletes the
entry, and returns the consumer-close error; otherwise the entry stays with
the remaining channels and nil is returned.  On a topic with no entry it
fails with the `topic-does-not-exist` error and touches nothing. -/
theorem claim2_unsubscribe_behavior (closeRes : Nat → Option GoErr) (sc : SaramaState)
    (topic : String) (ch : Chan) :
    (∀ cc : ConsumerChannels, mapLookup sc.registry topic = some cc →
      ch ∈ cc.channels → cc.channels.Nodup →
      (UnSubscribe closeRes sc topic ch).2.closedChans = [ch] ∧
      (cc.channels.length = 1 →
        (UnSubscribe closeRes sc topic ch).2.registry = mapDelete sc.registry topic ∧
        (UnSubscribe closeRes sc topic ch).2.closedConsumers = cc.consumers.map Consumer.cid ∧
        (UnSubscribe closeRes sc topic ch).2.err = closeConsumersGo closeRes cc.consumers) ∧
      (cc.channels.length ≠ 1 →
        mapLookup (UnSubscribe closeRes sc topic ch).2.registry topic
          = some { cc with channels := removeChannelRet cc.channels ch } ∧
        ch ∉ removeChannelRet cc.channels ch ∧
        (removeChannelRet cc.channels ch).length + 1 = cc.channels.length ∧
        (UnSubscribe closeRes sc topic ch).2.closedConsumers = [] ∧
        (UnSubscribe closeRes sc topic ch).2.err = none)) ∧
    (mapLookup sc.registry topic = none →
      (UnSubscribe closeRes sc topic ch).2 =
        { registry := sc.registry, closedChans := [], closedConsumers := []
          err := some "topic-does-not-exist" }) := by
  constructor
  · intro cc hEntry hmem hnd
    obtain ⟨i, hfi⟩ : ∃ i, findChanIdx cc.channels ch = some i := by
      cases hfi : findChanIdx cc.channels ch with
      | none => exact absurd ((findChanIdx_eq_none_iff cc.channels ch).mp hfi) (by simp [hmem])
      | some i => exact ⟨i, rfl⟩
    have hlenrel := removeChannelRet_length cc.channels ch i hfi
    have hclosed := removeChannelClosed_of_mem cc.channels ch hmem
    refine ⟨?_, ?_, ?_⟩
    · by_cases h1 : (removeChannelRet cc.channels ch).length = 0
      · show (UnSubscribe closeRes sc topic ch).2.closedChans = [ch]
        unfold UnSubscribe
        rw [removeChannelFromMap_empty closeRes sc.registry topic ch cc hEntry h1]
        exact hclosed
      · unfold UnSubscribe
        rw [removeChannelFromMap_nonempty closeRes sc.registry topic ch cc hEntry h1]
        exact hclosed
    · intro hone
      have h1 : (removeChannelRet cc.channels ch).length = 0 := by omega
      unfold UnSubscribe
      rw [removeChannelFromMap_empty closeRes sc.registry topic ch cc hEntry h1]
      exact ⟨rfl, rfl, rfl⟩
    · intro hne
      have h1 : (removeChannelRet cc.channels ch).length ≠ 0 := by omega
      unfold UnSubscribe
      rw [removeChannelFromMap_nonempty closeRes sc.registry topic ch cc hEntry h1]
      refine ⟨?_, removeChannelRet_not_mem cc.channels ch hnd hmem, hlenrel, rfl, rfl⟩
      exact mapLookup_update_self sc.registry topic cc _ hEntry
  · intro hnone
    unfold UnSubscribe
    simp only [removeChannelFromConsumerChannelMap, hnone]

/-- C2 witness: removing channel 5 from the entry for topic `t` (channels 5
and 6) closes exactly channel 5. -/
theorem claim2_witness :
    (UnSubscribe (fun _ => none) scUnsub "t" 5).2.closedChans = [5] :=
  ((claim2_unsubscribe_behavior (fun _ => none) scUnsub "t" 5).1
    { consumers := [{ cid := 0, kind := ConsumerKind.partitionC 0 }], channels := [5, 6] }
    (by decide) (by decide) (by decide)).1

/-- C10: `UnSubscribe` with a channel that is not registered under a topic
whose entry has a non-empty channel collection silently succeeds: it returns
nil, closes no channel and no consumer, and leaves the state unchanged. -/
theorem claim10_unsubscribe_missing_channel (closeRes : Nat → Option GoErr)
    (sc : SaramaState) (topic : String) (ch : Chan) (cc : ConsumerChannels)
    (hEntry : mapLookup sc.registry topic = some cc)
    (hne : cc.channels ≠ [])
    (hnm : ch ∉ cc.channels) :
    UnSubscribe closeRes sc topic ch =
      (sc, { registry := sc.registry, closedChans := [], closedConsumers := []
             err := none }) := by
  obtain ⟨hret, hclosed⟩ := removeChannelRet_of_not_mem cc.channels ch hnm
  have hlen : (removeChannelRet cc.channels ch).length ≠ 0 := by
    rw [hret]
    simpa [List.length_eq_zero] using hne
  have hcc : { cc with channels := removeChannelRet cc.channels ch } = cc := by
    rw [hret]
  have hreg : mapUpdate sc.registry topic { cc with channels := removeChannelRet cc.channels ch }
      = sc.registry := by
    rw [hcc]
    exact mapUpdate_self_eq sc.registry topic cc hEntry
  unfold UnSubscribe
  rw [removeChannelFromMap_nonempty closeRes sc.registry topic ch cc hEntry hlen]
  rw [hreg, hclosed]

/-- C10 witness: channel 7 is not registered for topic `t`; unsubscribing it
succeeds and changes nothing. -/
theorem claim10_witness :
    UnSubscribe (fun _ => none) scUnsub "t" 7 =
      (scUnsub, { registry := scUnsub.registry, closedChans := [], closedConsumers := []
                  err := none }) :=
  claim10_unsubscribe_missing_channel (fun _ => none) scUnsub "t" 7
    { consumers := [{ cid := 0, kind := ConsumerKind.partitionC 0 }], channels := [5, 6] }
    (by decide) (by decide) (by decide)

/-! ### Lemmas about Subscribe -/

theorem subscribe_existing (b : Broker) (sc : SaramaState) (topic : String)
    (cc : ConsumerChannels) (h : mapLookup sc.registry topic = some cc) :
    Subscribe b sc topic =
      ({ sc with nextChan := sc.nextChan + 1
                 registry := mapUpdate sc.registry topic
                   { cc with channels := cc.channels ++ [sc.nextChan] } },
       Except.ok sc.nextChan, []) := by
  simp only [Subscribe, addChannelToConsumerChannelMap, h]

theorem setupGroup_trace (b : Broker) (sc : SaramaState) (topic gid : String) :
    (setupGroupConsumerChannelM b sc topic gid).2.2 =
      [BrokerEvent.newGroupConsumerEv topic gid] := by
  simp only [setupGroupConsumerChannelM, createGroupConsumerM]
  cases hres : b.newGroupConsumerRes topic gid <;> simp [hres]

theorem setupGroup_ok (b : Broker) (sc : SaramaState) (topic gid : String)
    (h : exceptIsOk (setupGroupConsumerChannelM b sc topic gid).2.1 = true) :
    (setupGroupConsumerChannelM b sc topic gid).2.1 = Except.ok sc.nextChan ∧
    (setupGroupConsumerChannelM b sc topic gid).1.nextChan = sc.nextChan + 1 ∧
    (setupGroupConsumerChannelM b sc topic gid).1.registry =
      addTopicToConsumerChannelMap sc.registry topic
        { consumers := [{ cid := sc.nextConsumer, kind := ConsumerKind.groupC gid }]
          channels := [sc.nextChan] } := by
  simp only [setupGroupConsumerChannelM, createGroupConsumerM] at h ⊢
  cases hres : b.newGroupConsumerRes topic gid with
  | some e =>
      rw [hres] at h
      simp [exceptIsOk] at h
  | none =>
      exact ⟨rfl, rfl, rfl⟩

theorem setupPartition_ok (b : Broker) (sc : SaramaState) (topic : String)
    (h : exceptIsOk (setupPartitionConsumerChannelM b sc topic).2.1 = true) :
    (setupPartitionConsumerChannelM b sc topic).2.1 = Except.ok sc.nextChan ∧
    (setupPartitionConsumerChannelM b sc topic).1.nextChan = sc.nextChan + 1 ∧
    ∃ cs, (setupPartitionConsumerChannelM b sc topic).1.registry =
      addTopicToConsumerChannelMap sc.registry topic
        { consumers := cs, channels := [sc.nextChan] } := by
  unfold setupPartitionConsumerChannelM at h ⊢
  rcases hr : createPartionConsumersM b topic sc.nextConsumer with ⟨res, ctr, evs⟩
  cases res with
  | error e =>
      rw [hr] at h
      simp [exceptIsOk] at h
  | ok cs => exact ⟨rfl, rfl, cs, rfl⟩

theorem fresh_registry_facts (reg : Registry) (topic : String) (cc : ConsumerChannels)
    (hk : keysNodup reg) (hlk : mapLookup reg topic = none) :
    mapLookup (addTopicToConsumerChannelMap reg topic cc) topic = some cc ∧
    keysNodup (addTopicToConsumerChannelMap reg topic cc) := by
  rw [addTopic_of_none reg topic cc hlk]
  exact ⟨mapLookup_append_self reg topic cc hlk, keysNodup_append reg topic cc hk hlk⟩

theorem createFromPartitions_events (b : Broker) (topic : String) (parts : List Int) :
    ∀ ctr, ∀ ev ∈ (createFromPartitions b topic parts ctr).2.2,
      ∃ p, ev = BrokerEvent.consumePartitionEv topic p := by
  induction parts with
  | nil =>
      intro ctr ev hev
      simp [createFromPartitions] at hev
  | cons p rest ih =>
      intro ctr ev hev
      simp only [createFromPartitions] at hev
      cases hres : b.consumePartitionRes topic p with
      | some e =>
          rw [hres] at hev
          simp at hev
          exact ⟨p, hev⟩
      | none =>
          rw [hres] at hev
          rcases hrec : createFromPartitions b topic rest (ctr + 1) with ⟨res, ctr2, evs⟩
          rw [hrec] at hev
          cases res with
          | error e =>
              simp at hev
              rcases hev with hev | hev
              · exact ⟨p, hev⟩
              · exact ih (ctr + 1) ev (by rw [hrec]; exact hev)
          | ok cs =>
              simp at hev
              rcases hev with hev | hev
              · exact ⟨p, hev⟩
              · exact ih (ctr + 1) ev (by rw [hrec]; exact hev)

theorem setupPartition_events (b : Broker) (sc : SaramaState) (topic : String) :
    ∀ ev ∈ (setupPartitionConsumerChannelM b sc topic).2.2,
      ev = BrokerEvent.partitionsEv topic ∨
      ∃ p, ev = BrokerEvent.consumePartitionEv topic p := by
  intro ev hev
  unfold setupPartitionConsumerChannelM createPartionConsumersM at hev
  cases hps : b.partitionsRes topic with
  | error e =>
      rw [hps] at hev
      simp at hev
      exact Or.inl hev
  | ok parts =>
      rw [hps] at hev
      dsimp only at hev
      rcases hcf : createFromPartitions b topic parts sc.nextConsumer with ⟨res, ctr, evs⟩
      rw [hcf] at hev
      cases res with
      | error e =>
          simp at hev
          rcases hev with hev | hev
          · exact Or.inl hev
          · exact Or.inr (createFromPartitions_events b topic parts sc.nextConsumer ev
              (by rw [hcf]; exact hev))
      | ok cs =>
          simp at hev
          rcases hev with hev | hev
          · exact Or.inl hev
          · exact Or.inr (createFromPartitions_events b topic parts sc.nextConsumer ev
              (by rw [hcf]; exact hev))

theorem subscribe_fresh_group (b : Broker) (sc : SaramaState) (topic : String)
    (hlk : mapLookup sc.registry topic = none)
    (hgt : sc.consumerType = GroupCustomer) :
    Subscribe b sc topic = setupGroupConsumerChannelM b sc topic "mytest" := by
  have hne : sc.consumerType ≠ PartitionConsumer := by
    rw [hgt]
    decide
  simp only [Subscribe, hlk]
  rw [if_neg hne, if_pos hgt]

theorem subscribe_fresh_partition_noauto (b : Broker) (sc : SaramaState) (topic : String)
    (hlk : mapLookup sc.registry topic = none)
    (hpt : sc.consumerType = PartitionConsumer)
    (hauto : sc.autoCreateTopic = false) :
    Subscribe b sc topic = setupPartitionConsumerChannelM b sc topic := by
  simp only [Subscribe, hlk]
  rw [if_pos hpt, hauto]
  simp

theorem subscribe_fresh_partition_auto_ok (b : Broker) (sc : SaramaState) (topic : String)
    (hlk : mapLookup sc.registry topic = none)
    (hpt : sc.consumerType = PartitionConsumer)
    (hauto : sc.autoCreateTopic = true)
    (hct : CreateTopicM b topic sc.numPartitions sc.numReplicas = none) :
    Subscribe b sc topic =
      ((setupPartitionConsumerChannelM b sc topic).1,
       (setupPartitionConsumerChannelM b sc topic).2.1,
       BrokerEvent.createTopicEv topic :: (setupPartitionConsumerChannelM b sc topic).2.2) := by
  simp only [Subscribe, hlk]
  rw [if_pos hpt, hauto]
  simp [hct]

theorem subscribe_fresh_partition_auto_err (b : Broker) (sc : SaramaState) (topic : String)
    (e : GoErr)
    (hlk : mapLookup sc.registry topic = none)
    (hpt : sc.consumerType = PartitionConsumer)
    (hauto : sc.autoCreateTopic = true)
    (hct : CreateTopicM b topic sc.numPartitions sc.numReplicas = some e) :
    Subscribe b sc topic = (sc, Except.error e, [BrokerEvent.createTopicEv topic]) := by
  simp only [Subscribe, hlk]
  rw [if_pos hpt, hauto]
  simp [hct]

theorem subscribe_fresh_unknown (b : Broker) (sc : SaramaState) (topic : String)
    (hlk : mapLookup sc.registry topic = none)
    (hpt : sc.consumerType ≠ PartitionConsumer)
    (hgt : sc.consumerType ≠ GroupCustomer) :
    Subscribe b sc topic = (sc, Except.error "unknown-consumer-type", []) := by
  simp only [Subscribe, hlk]
  rw [if_neg hpt, if_neg hgt]

theorem subscribe_ok_facts (b : Broker) (sc : SaramaState) (topic : String)
    (hk : keysNodup sc.registry)
    (h : exceptIsOk (Subscribe b sc topic).2.1 = true) :
    (Subscribe b sc topic).2.1 = Except.ok sc.nextChan ∧
    (Subscribe b sc topic).1.nextChan = sc.nextChan + 1 ∧
    (∃ cc2, mapLookup (Subscribe b sc topic).1.registry topic = some cc2) ∧
    keysNodup (Subscribe b sc topic).1.registry := by
  cases hlk : mapLookup sc.registry topic with
  | some cc =>
      rw [subscribe_existing b sc topic cc hlk]
      exact ⟨rfl, rfl, ⟨_, mapLookup_update_self sc.registry topic cc _ hlk⟩,
        keysNodup_update sc.registry topic _ hk⟩
  | none =>
      by_cases hpt : sc.consumerType = PartitionConsumer
      · cases hauto : sc.autoCreateTopic with
        | true =>
            cases hct : CreateTopicM b topic sc.numPartitions sc.numReplicas with
            | some e =>
                rw [subscribe_fresh_partition_auto_err b sc topic e hlk hpt hauto hct] at h
                simp [exceptIsOk] at h
            | none =>
                rw [subscribe_fresh_partition_auto_ok b sc topic hlk hpt hauto hct] at h ⊢
                obtain ⟨h1, h2, cs, h3⟩ := setupPartition_ok b sc topic h
                obtain ⟨hl2, hk2⟩ := fresh_registry_facts sc.registry topic
                  { consumers := cs, channels := [sc.nextChan] } hk hlk
                refine ⟨h1, h2, ⟨{ consumers := cs, channels := [sc.nextChan] }, ?_⟩, ?_⟩
                · show mapLookup (setupPartitionConsumerChannelM b sc topic).1.registry topic = _
                  rw [h3]
                  exact hl2
                · show keysNodup (setupPartitionConsumerChannelM b sc topic).1.registry
                  rw [h3]
                  exact hk2
        | false =>
            rw [subscribe_fresh_partition_noauto b sc topic hlk hpt hauto] at h ⊢
            obtain ⟨h1, h2, cs, h3⟩ := setupPartition_ok b sc topic h
            obtain ⟨hl2, hk2⟩ := fresh_registry_facts sc.registry topic
              { consumers := cs, channels := [sc.nextChan] } hk hlk
            refine ⟨h1, h2, ⟨{ consumers := cs, channels := [sc.nextChan] }, ?_⟩, ?_⟩
            · rw [h3]
              exact hl2
            · show keysNodup (setupPartitionConsumerChannelM b sc topic).1.registry
              rw [h3]
              exact hk2
      · by_cases hgt : sc.consumerType = GroupCustomer
        · rw [subscribe_fresh_group b sc topic hlk hgt] at h ⊢
          obtain ⟨h1, h2, h3⟩ := setupGroup_ok b sc topic "mytest" h
          obtain ⟨hl2, hk2⟩ := fresh_registry_facts sc.registry topic
            { consumers := [{ cid := sc.nextConsumer, kind := ConsumerKind.groupC "mytest" }]
              channels := [sc.nextChan] } hk hlk
          refine ⟨h1, h2,
            ⟨{ consumers := [{ cid := sc.nextConsumer, kind := ConsumerKind.groupC "mytest" }]
               channels := [sc.nextChan] }, ?_⟩, ?_⟩
          · rw [h3]
            exact hl2
          · show keysNodup (setupGroupConsumerChannelM b sc topic "mytest").1.registry
            rw [h3]
            exact hk2
        · rw [subscribe_fresh_unknown b sc topic hlk hpt hgt] at h
          simp [exceptIsOk] at h

theorem map_range_succ_shift {α : Type} (g : Nat → α) (n : Nat) :
    (List.range (n + 1)).map g = g 0 :: (List.range n).map (fun i => g (i + 1)) := by
  rw [List.range_succ_eq_map]
  simp [List.map_map]

theorem map_range_consume (c n : Nat) :
    (List.range (n + 1)).map (fun i => c + i) = c :: (List.range n).map (fun i => c + 1 + i) := by
  rw [map_range_succ_shift (fun i => c + i) n]
  simp only [Nat.add_zero]
  congr 1
  apply List.map_congr_left
  intro a _
  omega

theorem map_range_ok_consume (c n : Nat) :
    (List.range (n + 1)).map (fun i => (Except.ok (c + i) : Except GoErr Chan)) =
      Except.ok c :: (List.range n).map (fun i => (Except.ok (c + 1 + i) : Except GoErr Chan)) := by
  rw [map_range_succ_shift (fun i => (Except.ok (c + i) : Except GoErr Chan)) n]
  simp only [Nat.add_zero]
  congr 1
  apply List.map_congr_left
  intro a _
  show Except.ok (c + (a + 1)) = Except.ok (c + 1 + a)
  rw [show c + (a + 1) = c + 1 + a from by omega]

theorem subscribeN_existing (b : Broker) (topic : String) (n : Nat) :
    ∀ (sc : SaramaState) (cc : ConsumerChannels),
      mapLookup sc.registry topic = some cc →
      (subscribeN b topic n sc).results =
        (List.range n).map (fun i => Except.ok (sc.nextChan + i)) ∧
      (subscribeN b topic n sc).traces = List.replicate n [] ∧
      (subscribeN b topic n sc).state.nextChan = sc.nextChan + n ∧
      mapLookup (subscribeN b topic n sc).state.registry topic =
        some { consumers := cc.consumers
               channels := cc.channels ++ (List.range n).map (fun i => sc.nextChan + i) } ∧
      (subscribeN b topic n sc).state.registry.map Prod.fst = sc.registry.map Prod.fst := by
  induction n with
  | zero =>
      intro sc cc hlk
      refine ⟨rfl, rfl, by simp [subscribeN], ?_, rfl⟩
      simpa [subscribeN] using hlk
  | succ n ih =>
      intro sc cc hlk
      have hfast := subscribe_existing b sc topic cc hlk
      have hlk2 : mapLookup (Subscribe b sc topic).1.registry topic =
          some { cc with channels := cc.channels ++ [sc.nextChan] } := by
        rw [hfast]
        exact mapLookup_update_self sc.registry topic cc _ hlk
      obtain ⟨ihres, ihtr, ihnext, ihlook, ihkeys⟩ :=
        ih (Subscribe b sc topic).1 { cc with channels := cc.channels ++ [sc.nextChan] } hlk2
      have hnext1 : (Subscribe b sc topic).1.nextChan = sc.nextChan + 1 := by
        rw [hfast]
      have hkeys1 : (Subscribe b sc topic).1.registry.map Prod.fst = sc.registry.map Prod.fst := by
        rw [hfast]
        exact mapUpdate_keys sc.registry topic _
      have hres1 : (Subscribe b sc topic).2.1 = Except.ok sc.nextChan := by
        rw [hfast]
      have htr1 : (Subscribe b sc topic).2.2 = [] := by
        rw [hfast]
      refine ⟨?_, ?_, ?_, ?_, ?_⟩
      · show (Subscribe b sc topic).2.1 :: (subscribeN b topic n (Subscribe b sc topic).1).results = _
        rw [hres1, ihres, hnext1, map_range_ok_consume]
      · show (Subscribe b sc topic).2.2 :: (subscribeN b topic n (Subscribe b sc topic).1).traces = _
        rw [htr1, ihtr]
        rfl
      · show (subscribeN b topic n (Subscribe b sc topic).1).state.nextChan = _
        rw [ihnext, hnext1]
        omega
      · show mapLookup (subscribeN b topic n (Subscribe b sc topic).1).state.registry topic = _
        rw [ihlook, hnext1]
        congr 2
        rw [List.append_assoc]
        congr 1
        rw [map_range_consume sc.nextChan n]
        rfl
      · show (subscribeN b topic n (Subscribe b sc topic).1).state.registry.map Prod.fst = _
        rw [ihkeys, hkeys1]

/-- C1: once the first `Subscribe` on a topic succeeds, N calls in total
return the N distinct fresh channels, the registry holds exactly one entry
for the topic, that entry keeps the consumers created by the first call with
every later channel appended to it, and no call after the first performs any
broker call (in particular it creates no broker-level consumer). -/
theorem claim1_subscribe_multiplexes (b : Broker) (topic : String) (sc0 : SaramaState)
    (N : Nat) (hk : keysNodup sc0.registry) (hN : 1 ≤ N)
    (hfirst : exceptIsOk (Subscribe b sc0 topic).2.1 = true) :
    (subscribeN b topic N sc0).results =
      (List.range N).map (fun i => Except.ok (sc0.nextChan + i)) ∧
    ((List.range N).map (fun i => sc0.nextChan + i)).Nodup ∧
    ((subscribeN b topic N sc0).state.registry.map Prod.fst).count topic = 1 ∧
    (∃ cc1, mapLookup (Subscribe b sc0 topic).1.registry topic = some cc1 ∧
        mapLookup (subscribeN b topic N sc0).state.registry topic =
          some { consumers := cc1.consumers
                 channels := cc1.channels ++
                   (List.range (N - 1)).map (fun i => sc0.nextChan + 1 + i) }) ∧
    (∀ evs ∈ (subscribeN b topic N sc0).traces.drop 1, evs = []) := by
  obtain ⟨n, rfl⟩ : ∃ n, N = n + 1 := ⟨N - 1, by omega⟩
  obtain ⟨hres1, hnext1, ⟨cc1, hcc1⟩, hk1⟩ := subscribe_ok_facts b sc0 topic hk hfirst
  obtain ⟨ihres, ihtr, ihnext, ihlook, ihkeys⟩ :=
    subscribeN_existing b topic n (Subscribe b sc0 topic).1 cc1 hcc1
  refine ⟨?_, ?_, ?_, ?_, ?_⟩
  · show (Subscribe b sc0 topic).2.1 ::
        (subscribeN b topic n (Subscribe b sc0 topic).1).results = _
    rw [hres1, ihres, hnext1, map_range_ok_consume]
  · refine List.Nodup.map ?_ (List.nodup_range (n + 1))
    intro a a2 hab
    simp only at hab
    omega
  · show ((subscribeN b topic n (Subscribe b sc0 topic).1).state.registry.map
        Prod.fst).count topic = 1
    rw [ihkeys]
    exact count_keys_eq_one _ topic cc1 hk1 hcc1
  · refine ⟨cc1, hcc1, ?_⟩
    show mapLookup (subscribeN b topic n (Subscribe b sc0 topic).1).state.registry topic = _
    rw [ihlook, hnext1, Nat.add_sub_cancel]
  · show ∀ evs ∈ ((Subscribe b sc0 topic).2.2 ::
        (subscribeN b topic n (Subscribe b sc0 topic).1).traces).drop 1, evs = []
    intro evs hevs
    rw [List.drop_one, List.tail_cons, ihtr] at hevs
    exact List.eq_of_mem_replicate hevs

/-- C1 witness: two subscriptions on a fresh partition-strategy client return
the distinct channels 0 and 1. -/
theorem claim1_witness :
    (subscribeN brokerOkG "events" 2 scPart0).results =
      (List.range 2).map (fun i => Except.ok (scPart0.nextChan + i)) :=
  (claim1_subscribe_multiplexes brokerOkG "events" scPart0 2
    (by simp [keysNodup, scPart0]) (by decide) (by decide)).1

/-- C9: under the group strategy, the first `Subscribe` on a topic performs
exactly one group-consumer creation against the broker, always with the
hard-coded group id `mytest`, whatever group name the client was configured
with. -/
theorem claim9_group_id_always_mytest (b : Broker) (sc : SaramaState) (topic : String)
    (hType : sc.consumerType = GroupCustomer)
    (hNone : mapLookup sc.registry topic = none) :
    (Subscribe b sc topic).2.2 = [BrokerEvent.newGroupConsumerEv topic "mytest"] := by
  rw [subscribe_fresh_group b sc topic hNone hType]
  exact setupGroup_trace b sc topic "mytest"

/-- C9 witness: a client configured with group name `configured-group`
still creates its group consumer with id `mytest`. -/
theorem claim9_witness :
    (Subscribe brokerOkG scGroupAuto "events").2.2 =
      [BrokerEvent.newGroupConsumerEv "events" "mytest"] :=
  claim9_group_id_always_mytest brokerOkG scGroupAuto "events" rfl rfl

/-- C5 counterexample: with the group strategy configured and
auto-create-topic enabled, a successful first `Subscribe` performs no topic
creation on the broker, contradicting the claim that the topic is created
under whichever consumer strategy is configured. -/
theorem claim5_counterexample :
    scGroupAuto.autoCreateTopic = true ∧
    mapLookup scGroupAuto.registry "events" = none ∧
    exceptIsOk (Subscribe brokerOkG scGroupAuto "events").2.1 = true ∧
    (Subscribe brokerOkG scGroupAuto "events").2.2 =
      [BrokerEvent.newGroupConsumerEv "events" "mytest"] ∧
    BrokerEvent.createTopicEv "events" ∉ (Subscribe brokerOkG scGroupAuto "events").2.2 := by
  decide

/-- C5 (amended): only under the partition strategy does `Subscribe` with
auto-create enabled create the topic, and it does so before any
consumer-building broker call; a creation failure is returned with nothing
registered.  Under the group strategy no topic creation happens at all. -/
theorem claim5_amended_autocreate_partition_only (b : Broker) (topic : String) :
    (∀ sc : SaramaState, mapLookup sc.registry topic = none →
        sc.consumerType = PartitionConsumer → sc.autoCreateTopic = true →
        (∃ rest, (Subscribe b sc topic).2.2 = BrokerEvent.createTopicEv topic :: rest ∧
            BrokerEvent.createTopicEv topic ∉ rest) ∧
        (∀ e, CreateTopicM b topic sc.numPartitions sc.numReplicas = some e →
            Subscribe b sc topic = (sc, Except.error e, [BrokerEvent.createTopicEv topic]))) ∧
    (∀ sc : SaramaState, sc.consumerType = GroupCustomer →
        ∀ ev ∈ (Subscribe b sc topic).2.2, ∀ t, ev ≠ BrokerEvent.createTopicEv t) := by
  constructor
  · intro sc hlk hpt hauto
    constructor
    · cases hct : CreateTopicM b topic sc.numPartitions sc.numReplicas with
      | some e =>
          refine ⟨[], ?_, by simp⟩
          rw [subscribe_fresh_partition_auto_err b sc topic e hlk hpt hauto hct]
      | none =>
          refine ⟨(setupPartitionConsumerChannelM b sc topic).2.2, ?_, ?_⟩
          · rw [subscribe_fresh_partition_auto_ok b sc topic hlk hpt hauto hct]
          · intro hmem
            rcases setupPartition_events b sc topic _ hmem with h1 | ⟨p, h2⟩
            · exact BrokerEvent.noConfusion h1
            · exact BrokerEvent.noConfusion h2
    · intro e hct
      exact subscribe_fresh_partition_auto_err b sc topic e hlk hpt hauto hct
  · intro sc hgt ev hev t
    cases hlk : mapLookup sc.registry topic with
    | some cc =>
        rw [subscribe_existing b sc topic cc hlk] at hev
        simp at hev
    | none =>
        rw [subscribe_fresh_group b sc topic hlk hgt, setupGroup_trace b sc topic "mytest"] at hev
        simp at hev
        rw [hev]
        intro hcontra
        exact BrokerEvent.noConfusion hcontra

/-- C5 amended witness: on a fresh partition-strategy client with auto-create
on, the broker trace starts with the topic-creation call. -/
theorem claim5_witness :
    ∃ rest, (Subscribe brokerOkG scPartAuto "events").2.2 =
        BrokerEvent.createTopicEv "events" :: rest ∧
      BrokerEvent.createTopicEv "events" ∉ rest :=
  ((claim5_amended_autocreate_partition_only brokerOkG "events").1 scPartAuto rfl rfl rfl).1

end SaramaModel
